import Mathlib

/-!
# pal_sysctl.cpp : the sysctl shims of System.Native

A shallow embedding of `src/Native/Unix/System.Native/pal_sysctl.cpp`.

The file defines two C entry points, each a single call into the C library:

* `SystemNative_SysctlByName(name, value, len)`  calls `sysctlbyname`,
* `SystemNative_Sysctl(name, namelen, value, len)` calls `sysctl`,

and it is gated by two preprocessor conditions, `HAVE_SYS_SYSCTL_H` and
`__linux__`.

The C library functions are not part of the file; they are taken as a
parameter (`Kernel`), an arbitrary function of its arguments and of the state
of the machine. The shims are polymorphic in the state type, so that they can
be run both on the plain machine state (`World`) and on an instrumented state
that records every call made (`traced`).
-/

namespace PalSysctl

/-! ## Data model -/

/-- A machine address. Every pointer argument of the shims (`const char*`,
`int*`, `void*`, `size_t*`) is an address; the shims never dereference one. -/
abbrev Ptr := Nat

/-- The C++ null pointer constant. -/
def nullptr : Ptr := 0

/-- The state a call into the C library can observe and change: the memory of
the process (one cell per address), the last-error value of the calling
thread, and the parameters held by the kernel. -/
structure World where
  mem : Ptr → Nat
  errno : Int
  kparams : Nat → Nat

/-- The two C library functions the file calls, each with the arguments of its
C prototype in order. The count of `sysctl` is held as the number the callee
receives: it is an `unsigned int` on the BSD family and an `int` on Linux. The
result is the C `int` the function returns. -/
structure Kernel (σ : Type) where
  sysctlbyname : Ptr → Ptr → Ptr → Ptr → Nat → σ → Int × σ
  sysctl : Ptr → Int → Ptr → Ptr → Ptr → Nat → σ → Int × σ

/-- The conversion `static_cast<int>(namelen)` of an `unsigned int` to `int`,
both 32 bits wide: the value is kept when it is representable and is reduced
modulo `2^32` into the range of `int` otherwise. -/
def static_cast_int (n : Nat) : Int :=
  if n % 2 ^ 32 < 2 ^ 31 then ((n % 2 ^ 32 : Nat) : Int)
  else ((n % 2 ^ 32 : Nat) : Int) - 2 ^ 32

/-! ## The two entry points -/

/-- Source lines 24 to 29. The result type `int32_t` is the type `int` of the
callee, so that `return` converts nothing. -/
def SystemNative_SysctlByName {σ : Type} (k : Kernel σ) (name value len : Ptr) :
    σ → Int × σ := fun s =>
  let newp : Ptr := nullptr
  let newlen : Nat := 0
  k.sysctlbyname name value len newp newlen s

/-- Source lines 32 to 42. The first argument is the preprocessor condition
`#ifdef __linux__`, which selects one of the two `return` statements when the
file is compiled. `namelen` is the `unsigned int` parameter. -/
def SystemNative_Sysctl {σ : Type} (__linux__ : Bool) (k : Kernel σ)
    (name : Ptr) (namelen : Nat) (value len : Ptr) : σ → Int × σ := fun s =>
  let newp : Ptr := nullptr
  let newlen : Nat := 0
  if __linux__ then
    k.sysctl name (static_cast_int namelen) value len newp newlen s
  else
    k.sysctl name (namelen : Int) value len newp newlen s

/-! ## Conditional compilation -/

/-- The two preprocessor conditions the file tests. -/
structure BuildConfig where
  HAVE_SYS_SYSCTL_H : Bool
  __linux__ : Bool
deriving DecidableEq, Repr

/-- What one compilation of the file defines: each entry point is present
(`some`, with its body) or absent (`none`). -/
structure Exports (σ : Type) where
  SystemNative_SysctlByName : Option (Kernel σ → Ptr → Ptr → Ptr → σ → Int × σ)
  SystemNative_Sysctl : Option (Kernel σ → Ptr → Nat → Ptr → Ptr → σ → Int × σ)

/-- The translation unit: `#if HAVE_SYS_SYSCTL_H` encloses everything,
`#ifndef __linux__` encloses `SystemNative_SysctlByName` alone. -/
def pal_sysctl {σ : Type} (cfg : BuildConfig) : Exports σ :=
  if cfg.HAVE_SYS_SYSCTL_H then
    { SystemNative_SysctlByName :=
        if cfg.__linux__ then none else some SystemNative_SysctlByName
      SystemNative_Sysctl := some (SystemNative_Sysctl cfg.__linux__) }
  else
    { SystemNative_SysctlByName := none
      SystemNative_Sysctl := none }

/-- The names of the two entry points. -/
inductive Symbol where
  | SystemNative_SysctlByName
  | SystemNative_Sysctl
deriving DecidableEq, Repr

/-- The entry points one compilation defines, in the order of the file. -/
def definedSymbols (cfg : BuildConfig) : List Symbol :=
  let unit : Exports World := pal_sysctl cfg
  (if unit.SystemNative_SysctlByName.isSome then [Symbol.SystemNative_SysctlByName] else [])
    ++ (if unit.SystemNative_Sysctl.isSome then [Symbol.SystemNative_Sysctl] else [])

/-! ## Recording the calls made -/

/-- One call into the C library, with its arguments. -/
inductive Call where
  | sysctlbyname (name oldp oldlenp newp : Ptr) (newlen : Nat)
  | sysctl (name : Ptr) (namelen : Int) (oldp oldlenp newp : Ptr) (newlen : Nat)
deriving DecidableEq, Repr

/-- The new-value pointer of a call. -/
def Call.newp : Call → Ptr
  | Call.sysctlbyname _ _ _ newp _ => newp
  | Call.sysctl _ _ _ _ newp _ => newp

/-- The new-value length of a call. -/
def Call.newlen : Call → Nat
  | Call.sysctlbyname _ _ _ _ newlen => newlen
  | Call.sysctl _ _ _ _ _ newlen => newlen

/-- The old-value (destination) pointer of a call. -/
def Call.oldp : Call → Ptr
  | Call.sysctlbyname _ oldp _ _ _ => oldp
  | Call.sysctl _ _ oldp _ _ _ => oldp

/-- The pointer to the length cell of a call. -/
def Call.oldlenp : Call → Ptr
  | Call.sysctlbyname _ _ oldlenp _ _ => oldlenp
  | Call.sysctl _ _ _ oldlenp _ _ => oldlenp

/-- A recorded call: its arguments and the state the callee found on entry. -/
structure Event where
  call : Call
  entry : World

/-- A library that behaves as `k` and appends every call it receives to a log
kept beside the state. The log is out of reach of `k`. -/
def traced (k : Kernel World) : Kernel (World × List Event) where
  sysctlbyname name oldp oldlenp newp newlen := fun s =>
    let r := k.sysctlbyname name oldp oldlenp newp newlen s.1
    (r.1, (r.2, s.2 ++ [⟨Call.sysctlbyname name oldp oldlenp newp newlen, s.1⟩]))
  sysctl name namelen oldp oldlenp newp newlen := fun s =>
    let r := k.sysctl name namelen oldp oldlenp newp newlen s.1
    (r.1, (r.2, s.2 ++ [⟨Call.sysctl name namelen oldp oldlenp newp newlen, s.1⟩]))

/-! ## Conventions of the library the claims speak of

The behaviour of the library is a parameter. Some claims are about libraries
that follow a stated convention; each convention is a predicate on `Kernel`.
A catalogue of the identifiers the kernel recognizes gives, for a name or for
a path with its count, the size in bytes of the value (`none` when the
identifier is not recognized). -/

/-- A call with a null new value and a new length of zero changes no kernel
parameter. -/
def ReadsWithoutNewValue (k : Kernel World) : Prop :=
  (∀ name oldp oldlenp w,
      (k.sysctlbyname name oldp oldlenp nullptr 0 w).2.kparams = w.kparams) ∧
  (∀ name namelen oldp oldlenp w,
      (k.sysctl name namelen oldp oldlenp nullptr 0 w).2.kparams = w.kparams)

/-- The counts the `sysctl` of the platform can receive: an `int` on Linux, an
`unsigned int` elsewhere. -/
def CountFits (__linux__ : Bool) (c : Int) : Prop :=
  if __linux__ then -(2 ^ 31) ≤ c ∧ c < 2 ^ 31 else 0 ≤ c ∧ c < 2 ^ 32

/-- Every path the kernel recognizes has a count its `sysctl` can receive. -/
def PathCountsFit (__linux__ : Bool) (sizeByPath : Ptr → Int → World → Option Nat) : Prop :=
  ∀ name c w req, sizeByPath name c w = some req → CountFits __linux__ c

/-- For the destination pointer `oldp`, a read of a recognized identifier whose
value needs more bytes than the length cell announces fails (nonzero result)
and leaves the required size in the length cell. -/
def ReportsShortBuffer (k : Kernel World) (sizeByName : Ptr → World → Option Nat)
    (sizeByPath : Ptr → Int → World → Option Nat) (oldp : Ptr) : Prop :=
  (∀ name oldlenp w req, sizeByName name w = some req → w.mem oldlenp < req →
      (k.sysctlbyname name oldp oldlenp nullptr 0 w).1 ≠ 0 ∧
      (k.sysctlbyname name oldp oldlenp nullptr 0 w).2.mem oldlenp = req) ∧
  (∀ name namelen oldlenp w req, sizeByPath name namelen w = some req → w.mem oldlenp < req →
      (k.sysctl name namelen oldp oldlenp nullptr 0 w).1 ≠ 0 ∧
      (k.sysctl name namelen oldp oldlenp nullptr 0 w).2.mem oldlenp = req)

/-- The state in which the length cell `oldlenp` holds `req` and nothing else
differs from `w`. -/
def World.withLength (w : World) (oldlenp : Ptr) (req : Nat) : World :=
  { w with mem := Function.update w.mem oldlenp req }

/-- A read of a recognized identifier with a null destination and a length
cell holding zero succeeds (result zero) and stores the size of the value in
the length cell, changing nothing else. -/
def AnswersSizeOnly (k : Kernel World) (sizeByName : Ptr → World → Option Nat)
    (sizeByPath : Ptr → Int → World → Option Nat) : Prop :=
  (∀ name oldlenp w req, sizeByName name w = some req → w.mem oldlenp = 0 →
      k.sysctlbyname name nullptr oldlenp nullptr 0 w = (0, w.withLength oldlenp req)) ∧
  (∀ name namelen oldlenp w req, sizeByPath name namelen w = some req → w.mem oldlenp = 0 →
      k.sysctl name namelen nullptr oldlenp nullptr 0 w = (0, w.withLength oldlenp req))

/-! ## A concrete library, for checking the statements on an instance

One recognized name (at address 100) and one recognized path (at address 300,
two codes), both of a value of eight bytes. -/

/-- Sizes by name of the sample kernel. -/
def sampleSizeByName : Ptr → World → Option Nat :=
  fun name _ => if name = 100 then some 8 else none

/-- Sizes by path of the sample kernel. -/
def sampleSizeByPath : Ptr → Int → World → Option Nat :=
  fun name c _ => if name = 300 ∧ c = 2 then some 8 else none

/-- How the sample kernel answers a read: an unknown identifier fails with
error 2; a null destination gets the size alone; a short buffer fails with
error 12 and gets the required size; otherwise the value is copied out. -/
def sampleAnswer (req : Option Nat) (oldp oldlenp : Ptr) (w : World) : Int × World :=
  match req with
  | none => (-1, { w with errno := 2 })
  | some r =>
    if oldp = nullptr then (0, w.withLength oldlenp r)
    else if w.mem oldlenp < r then (-1, { (w.withLength oldlenp r) with errno := 12 })
    else
      (0, { w with mem := fun a =>
              if a = oldlenp then r
              else if oldp ≤ a ∧ a < oldp + r then w.kparams (a - oldp)
              else w.mem a })

/-- The sample library. It ignores the new value: it only reads. -/
def sampleKernel : Kernel World where
  sysctlbyname name oldp oldlenp _ _ := fun w =>
    sampleAnswer (sampleSizeByName name w) oldp oldlenp w
  sysctl name namelen oldp oldlenp _ _ := fun w =>
    sampleAnswer (sampleSizeByPath name namelen w) oldp oldlenp w

/-- A state whose length cell at address 200 announces four bytes. -/
def sampleWorld : World :=
  { mem := fun a => if a = 200 then 4 else 0, errno := 0, kparams := fun i => i + 1 }

/-- A state whose length cell at address 200 announces zero bytes. -/
def sampleWorldZero : World :=
  { mem := fun _ => 0, errno := 0, kparams := fun i => i + 1 }

/-! ## Facts about the conversion -/

theorem static_cast_int_of_lt {n : Nat} (h : n < 2 ^ 31) : static_cast_int n = (n : Int) := by
  have h1 : n % 2 ^ 32 = n := Nat.mod_eq_of_lt (by omega)
  unfold static_cast_int
  rw [h1, if_pos h]

theorem static_cast_int_of_ge {n : Nat} (h : 2 ^ 31 ≤ n) (h2 : n < 2 ^ 32) :
    static_cast_int n = (n : Int) - 2 ^ 32 := by
  have h1 : n % 2 ^ 32 = n := Nat.mod_eq_of_lt h2
  unfold static_cast_int
  rw [h1, if_neg (by omega)]

/-! ## The claims -/

/-- C1: for every name, value buffer, length cell, state and every behaviour
`k` of the library, `SystemNative_SysctlByName` makes exactly one call, which
is `sysctlbyname(name, value, len, nullptr, 0)` issued in the caller's state,
and returns the result code and the state that call produced, unmodified. -/
theorem sysctlByName_one_call_passthrough (k : Kernel World) (name value len : Ptr)
    (w : World) (log : List Event) :
    SystemNative_SysctlByName (traced k) name value len (w, log)
        = ((k.sysctlbyname name value len nullptr 0 w).1,
           ((k.sysctlbyname name value len nullptr 0 w).2,
            log ++ [⟨Call.sysctlbyname name value len nullptr 0, w⟩]))
      ∧ SystemNative_SysctlByName k name value len w
        = k.sysctlbyname name value len nullptr 0 w := by
  exact ⟨rfl, rfl⟩

/-- C2: on a kernel family other than Linux, for every count below `2^32`,
`SystemNative_Sysctl` makes exactly one call, which is
`sysctl(name, namelen, value, len, nullptr, 0)` with the count equal to
`namelen` (the same unsigned 32-bit value), and returns the result code and
the state of that call. -/
theorem sysctl_other_one_call_passthrough (k : Kernel World) (name : Ptr) (namelen : Nat)
    (value len : Ptr) (w : World) (log : List Event) (h : namelen < 2 ^ 32) :
    SystemNative_Sysctl false (traced k) name namelen value len (w, log)
        = ((k.sysctl name (namelen : Int) value len nullptr 0 w).1,
           ((k.sysctl name (namelen : Int) value len nullptr 0 w).2,
            log ++ [⟨Call.sysctl name (namelen : Int) value len nullptr 0, w⟩]))
      ∧ SystemNative_Sysctl false k name namelen value len w
        = k.sysctl name (namelen : Int) value len nullptr 0 w
      ∧ CountFits false (namelen : Int)
      ∧ ((namelen : Int) % 2 ^ 32).toNat = namelen := by
  refine ⟨rfl, rfl, ?_, ?_⟩
  · simp only [CountFits]
    constructor <;> omega
  · omega

/-- Witness of C2: a path of two codes on the sample kernel. -/
theorem sysctl_other_one_call_passthrough_witness :
    (2 : Nat) < 2 ^ 32
      ∧ SystemNative_Sysctl false sampleKernel 300 2 400 200 sampleWorld
        = sampleKernel.sysctl 300 2 400 200 nullptr 0 sampleWorld :=
  ⟨by decide,
   (sysctl_other_one_call_passthrough sampleKernel 300 2 400 200 sampleWorld []
      (by decide)).2.1⟩

/-- C3: every call either entry point makes (on Linux and elsewhere) carries a
null new-value pointer and a new-value length of zero; hence, with a library in
which such a call changes no kernel parameter, neither entry point changes a
kernel parameter. -/
theorem shims_supply_no_new_value (k : Kernel World) (__linux__ : Bool) (name : Ptr)
    (namelen : Nat) (value len : Ptr) (w : World) :
    (∀ e ∈ (SystemNative_SysctlByName (traced k) name value len (w, [])).2.2,
        e.call.newp = nullptr ∧ e.call.newlen = 0)
      ∧ (∀ e ∈ (SystemNative_Sysctl __linux__ (traced k) name namelen value len (w, [])).2.2,
        e.call.newp = nullptr ∧ e.call.newlen = 0)
      ∧ (ReadsWithoutNewValue k →
          (SystemNative_SysctlByName k name value len w).2.kparams = w.kparams
          ∧ (SystemNative_Sysctl __linux__ k name namelen value len w).2.kparams
              = w.kparams) := by
  refine ⟨?_, ?_, ?_⟩
  · intro e he
    simp only [SystemNative_SysctlByName, traced, List.nil_append, List.mem_singleton] at he
    subst he
    exact ⟨rfl, rfl⟩
  · intro e he
    cases __linux__ <;>
      simp only [SystemNative_Sysctl, traced, List.nil_append, List.mem_singleton,
        if_true, if_false, Bool.false_eq_true] at he <;>
      subst he <;> exact ⟨rfl, rfl⟩
  · intro hk
    refine ⟨hk.1 name value len w, ?_⟩
    cases __linux__
    · exact hk.2 name (namelen : Int) value len w
    · exact hk.2 name (static_cast_int namelen) value len w

/-- Witness of C3: the sample kernel only reads, and a read through either
entry point leaves its parameters as they were. -/
theorem shims_supply_no_new_value_witness :
    ReadsWithoutNewValue sampleKernel
      ∧ (SystemNative_SysctlByName sampleKernel 100 400 200 sampleWorld).2.kparams
          = sampleWorld.kparams
      ∧ (SystemNative_Sysctl true sampleKernel 300 2 400 200 sampleWorld).2.kparams
          = sampleWorld.kparams :=
  have hk : ReadsWithoutNewValue sampleKernel := by
    constructor
    · intro name oldp oldlenp w
      simp only [sampleKernel, sampleAnswer, World.withLength]
      split
      · rfl
      · split_ifs <;> rfl
    · intro name namelen oldp oldlenp w
      simp only [sampleKernel, sampleAnswer, World.withLength]
      split
      · rfl
      · split_ifs <;> rfl
  ⟨hk, (shims_supply_no_new_value sampleKernel true 100 2 400 200 sampleWorld).2.2 hk |>.1,
    (shims_supply_no_new_value sampleKernel true 300 2 400 200 sampleWorld).2.2 hk |>.2⟩

/-- C4: on Linux the count is converted by `static_cast<int>` before the call,
and for every `namelen` from 0 to `2^31 - 1` the count handed to `sysctl`
equals `namelen`; on this range the Linux variant and the other variant make
the same call and return the same result and state, for the same library. -/
theorem sysctl_linux_count_exact (k : Kernel World) (name : Ptr) (namelen : Nat)
    (value len : Ptr) (w : World) (log : List Event) (h : namelen ≤ 2 ^ 31 - 1) :
    static_cast_int namelen = (namelen : Int)
      ∧ SystemNative_Sysctl true (traced k) name namelen value len (w, log)
        = ((k.sysctl name (namelen : Int) value len nullptr 0 w).1,
           ((k.sysctl name (namelen : Int) value len nullptr 0 w).2,
            log ++ [⟨Call.sysctl name (namelen : Int) value len nullptr 0, w⟩]))
      ∧ SystemNative_Sysctl true (traced k) name namelen value len (w, log)
        = SystemNative_Sysctl false (traced k) name namelen value len (w, log)
      ∧ SystemNative_Sysctl true k name namelen value len w
        = SystemNative_Sysctl false k name namelen value len w := by
  have hc : static_cast_int namelen = (namelen : Int) :=
    static_cast_int_of_lt (by omega)
  refine ⟨hc, ?_, ?_, ?_⟩ <;>
    simp only [SystemNative_Sysctl, traced, if_true, if_false, Bool.false_eq_true, hc]

/-- Witness of C4: the largest count of the range, `2^31 - 1`. -/
theorem sysctl_linux_count_exact_witness :
    (2147483647 : Nat) ≤ 2 ^ 31 - 1
      ∧ static_cast_int 2147483647 = 2147483647
      ∧ SystemNative_Sysctl true sampleKernel 300 2147483647 400 200 sampleWorld
        = SystemNative_Sysctl false sampleKernel 300 2147483647 400 200 sampleWorld :=
  ⟨by decide,
   (sysctl_linux_count_exact sampleKernel 300 2147483647 400 200 sampleWorld []
      (by decide)).1,
   (sysctl_linux_count_exact sampleKernel 300 2147483647 400 200 sampleWorld []
      (by decide)).2.2.2⟩

/-- C5: on Linux, for every count from `2^31` to `2^32 - 1`,
`SystemNative_Sysctl` makes exactly one call and hands `sysctl` the count
`namelen - 2^32`, a negative `int`; it returns the result code and the state of
that call, so that every address the call left as it was is left as it was on
return: the entry point writes nothing of its own. -/
theorem sysctl_linux_count_wraps (k : Kernel World) (name : Ptr) (namelen : Nat)
    (value len : Ptr) (w : World) (log : List Event)
    (hlo : 2 ^ 31 ≤ namelen) (hhi : namelen < 2 ^ 32) :
    static_cast_int namelen = (namelen : Int) - 2 ^ 32
      ∧ CountFits true ((namelen : Int) - 2 ^ 32)
      ∧ (namelen : Int) - 2 ^ 32 < 0
      ∧ SystemNative_Sysctl true (traced k) name namelen value len (w, log)
        = ((k.sysctl name ((namelen : Int) - 2 ^ 32) value len nullptr 0 w).1,
           ((k.sysctl name ((namelen : Int) - 2 ^ 32) value len nullptr 0 w).2,
            log ++ [⟨Call.sysctl name ((namelen : Int) - 2 ^ 32) value len nullptr 0, w⟩]))
      ∧ SystemNative_Sysctl true k name namelen value len w
        = k.sysctl name ((namelen : Int) - 2 ^ 32) value len nullptr 0 w
      ∧ (∀ a, (k.sysctl name ((namelen : Int) - 2 ^ 32) value len nullptr 0 w).2.mem a = w.mem a →
          (SystemNative_Sysctl true k name namelen value len w).2.mem a = w.mem a) := by
  have hc : static_cast_int namelen = (namelen : Int) - 2 ^ 32 :=
    static_cast_int_of_ge hlo hhi
  have hrun : SystemNative_Sysctl true k name namelen value len w
      = k.sysctl name ((namelen : Int) - 2 ^ 32) value len nullptr 0 w := by
    simp only [SystemNative_Sysctl, if_true, hc]
  refine ⟨hc, ?_, by omega, ?_, hrun, ?_⟩
  · simp only [CountFits, if_true]
    constructor <;> omega
  · simp only [SystemNative_Sysctl, traced, if_true, hc]
  · intro a ha
    rw [hrun]
    exact ha

/-- Witness of C5: the count `2^32 - 1` reaches `sysctl` as `-1`; the sample
kernel does not recognize it and fails. -/
theorem sysctl_linux_count_wraps_witness :
    (2 : Nat) ^ 31 ≤ 4294967295 ∧ (4294967295 : Nat) < 2 ^ 32
      ∧ static_cast_int 4294967295 = -1
      ∧ (SystemNative_Sysctl true sampleKernel 300 4294967295 400 200 sampleWorld).1 = -1 :=
  ⟨by decide, by decide,
   (sysctl_linux_count_wraps sampleKernel 300 4294967295 400 200 sampleWorld []
      (by decide) (by decide)).1.trans (by decide),
   ((congrArg Prod.fst
      (sysctl_linux_count_wraps sampleKernel 300 4294967295 400 200 sampleWorld []
        (by decide) (by decide)).2.2.2.2.1).trans (by decide))⟩

/-- C6: neither entry point reads or writes the value buffer or the length
cell. The call it makes finds the state of the caller (so the length cell holds
the capacity the caller stored) and receives the two pointers of the caller;
the state on return is the state that call left (so the buffer and the length
cell hold what the call left there). -/
theorem shims_leave_buffer_and_length (k : Kernel World) (__linux__ : Bool) (name : Ptr)
    (namelen : Nat) (value len : Ptr) (w : World) :
    (∀ e ∈ (SystemNative_SysctlByName (traced k) name value len (w, [])).2.2,
        e.entry = w ∧ e.entry.mem len = w.mem len
          ∧ e.call.oldp = value ∧ e.call.oldlenp = len)
      ∧ (SystemNative_SysctlByName k name value len w).2
          = (k.sysctlbyname name value len nullptr 0 w).2
      ∧ (∀ e ∈ (SystemNative_Sysctl __linux__ (traced k) name namelen value len (w, [])).2.2,
        e.entry = w ∧ e.entry.mem len = w.mem len
          ∧ e.call.oldp = value ∧ e.call.oldlenp = len)
      ∧ (SystemNative_Sysctl __linux__ k name namelen value len w).2
          = (k.sysctl name (if __linux__ then static_cast_int namelen else (namelen : Int))
              value len nullptr 0 w).2 := by
  refine ⟨?_, rfl, ?_, ?_⟩
  · intro e he
    simp only [SystemNative_SysctlByName, traced, List.nil_append, List.mem_singleton] at he
    subst he
    exact ⟨rfl, rfl, rfl, rfl⟩
  · intro e he
    cases __linux__ <;>
      simp only [SystemNative_Sysctl, traced, List.nil_append, List.mem_singleton,
        if_true, if_false, Bool.false_eq_true] at he <;>
      subst he <;> exact ⟨rfl, rfl, rfl, rfl⟩
  · cases __linux__ <;> rfl

/-- C7: for both entry points the result is nonzero exactly when the call into
the library returned nonzero, and zero exactly when it returned zero; the
last-error value on return is the one that call left; and the call is made
once, without a retry. -/
theorem shims_surface_failure_verbatim (k : Kernel World) (__linux__ : Bool) (name : Ptr)
    (namelen : Nat) (value len : Ptr) (w : World) :
    ((SystemNative_SysctlByName k name value len w).1 ≠ 0
        ↔ (k.sysctlbyname name value len nullptr 0 w).1 ≠ 0)
      ∧ ((SystemNative_SysctlByName k name value len w).1 = 0
        ↔ (k.sysctlbyname name value len nullptr 0 w).1 = 0)
      ∧ (SystemNative_SysctlByName k name value len w).1
          = (k.sysctlbyname name value len nullptr 0 w).1
      ∧ (SystemNative_SysctlByName k name value len w).2.errno
          = (k.sysctlbyname name value len nullptr 0 w).2.errno
      ∧ (SystemNative_SysctlByName (traced k) name value len (w, [])).2.2.length = 1
      ∧ ((SystemNative_Sysctl __linux__ k name namelen value len w).1 ≠ 0
        ↔ (k.sysctl name (if __linux__ then static_cast_int namelen else (namelen : Int))
              value len nullptr 0 w).1 ≠ 0)
      ∧ ((SystemNative_Sysctl __linux__ k name namelen value len w).1 = 0
        ↔ (k.sysctl name (if __linux__ then static_cast_int namelen else (namelen : Int))
              value len nullptr 0 w).1 = 0)
      ∧ (SystemNative_Sysctl __linux__ k name namelen value len w).1
          = (k.sysctl name (if __linux__ then static_cast_int namelen else (namelen : Int))
              value len nullptr 0 w).1
      ∧ (SystemNative_Sysctl __linux__ k name namelen value len w).2.errno
          = (k.sysctl name (if __linux__ then static_cast_int namelen else (namelen : Int))
              value len nullptr 0 w).2.errno
      ∧ (SystemNative_Sysctl __linux__ (traced k) name namelen value len (w, [])).2.2.length
          = 1 := by
  have hrun : SystemNative_Sysctl __linux__ k name namelen value len w
      = k.sysctl name (if __linux__ then static_cast_int namelen else (namelen : Int))
          value len nullptr 0 w := by
    cases __linux__ <;> rfl
  refine ⟨Iff.rfl, Iff.rfl, rfl, rfl, rfl, ?_, ?_, ?_, ?_, ?_⟩
  · rw [hrun]
  · rw [hrun]
  · rw [hrun]
  · rw [hrun]
  · cases __linux__ <;> rfl

/-- C8: with a library that reports a short buffer as a failure and stores the
required size in the length cell, for every recognized identifier whose value
needs more bytes than the length cell announces on entry, both entry points
return a nonzero result and the length cell holds the required size on
return. -/
theorem shims_report_short_buffer (k : Kernel World) (__linux__ : Bool)
    (sizeByName : Ptr → World → Option Nat) (sizeByPath : Ptr → Int → World → Option Nat)
    (name : Ptr) (namelen : Nat) (value len : Ptr) (w : World) (req : Nat)
    (hk : ReportsShortBuffer k sizeByName sizeByPath value)
    (hdom : PathCountsFit __linux__ sizeByPath)
    (hcap : w.mem len < req) :
    (sizeByName name w = some req →
        (SystemNative_SysctlByName k name value len w).1 ≠ 0
          ∧ (SystemNative_SysctlByName k name value len w).2.mem len = req)
      ∧ (sizeByPath name (namelen : Int) w = some req →
        (SystemNative_Sysctl __linux__ k name namelen value len w).1 ≠ 0
          ∧ (SystemNative_Sysctl __linux__ k name namelen value len w).2.mem len = req) := by
  refine ⟨fun hrec => hk.1 name len w req hrec hcap, fun hrec => ?_⟩
  cases __linux__
  · exact hk.2 name (namelen : Int) len w req hrec hcap
  · have hfit := hdom name (namelen : Int) w req hrec
    simp only [CountFits, if_true] at hfit
    have hc : static_cast_int namelen = (namelen : Int) :=
      static_cast_int_of_lt (by omega)
    simp only [SystemNative_Sysctl, if_true, hc]
    exact hk.2 name (namelen : Int) len w req hrec hcap

/-- Witness of C8: the sample kernel, a buffer at address 400 of four bytes
for a value of eight. -/
theorem shims_report_short_buffer_witness :
    ReportsShortBuffer sampleKernel sampleSizeByName sampleSizeByPath 400
      ∧ PathCountsFit true sampleSizeByPath
      ∧ sampleWorld.mem 200 < 8
      ∧ ((SystemNative_SysctlByName sampleKernel 100 400 200 sampleWorld).1 ≠ 0
        ∧ (SystemNative_SysctlByName sampleKernel 100 400 200 sampleWorld).2.mem 200 = 8)
      ∧ ((SystemNative_Sysctl true sampleKernel 300 2 400 200 sampleWorld).1 ≠ 0
        ∧ (SystemNative_Sysctl true sampleKernel 300 2 400 200 sampleWorld).2.mem 200 = 8) :=
  have hk : ReportsShortBuffer sampleKernel sampleSizeByName sampleSizeByPath 400 := by
    constructor
    · intro name oldlenp w req hrec hcap
      simp only [sampleKernel, hrec, sampleAnswer, nullptr, World.withLength]
      simp [hcap]
    · intro name namelen oldlenp w req hrec hcap
      simp only [sampleKernel, hrec, sampleAnswer, nullptr, World.withLength]
      simp [hcap]
  have hdom : PathCountsFit true sampleSizeByPath := by
    intro name c w req hrec
    simp only [sampleSizeByPath] at hrec
    split_ifs at hrec with h
    simp only [CountFits, if_true]
    omega
  have h := shims_report_short_buffer sampleKernel true sampleSizeByName sampleSizeByPath
    100 2 400 200 sampleWorld 8 hk hdom (by decide)
  have h2 := shims_report_short_buffer sampleKernel true sampleSizeByName sampleSizeByPath
    300 2 400 200 sampleWorld 8 hk hdom (by decide)
  ⟨hk, hdom, by decide, h.1 (by decide), h2.2 (by decide)⟩

/-- C9: a call of either entry point with a null value pointer and a length
cell holding zero hands the library the null pointer and the zero length as
they are, in one call; with a library that answers such a request for a
recognized identifier by success and the size of the value, the entry point
returns 0 and the state on return differs from the state on entry in the
length cell alone, which holds the size. -/
theorem shims_forward_size_only (k : Kernel World) (__linux__ : Bool)
    (sizeByName : Ptr → World → Option Nat) (sizeByPath : Ptr → Int → World → Option Nat)
    (name : Ptr) (namelen : Nat) (len : Ptr) (w : World) (req : Nat)
    (hk : AnswersSizeOnly k sizeByName sizeByPath)
    (hdom : PathCountsFit __linux__ sizeByPath)
    (hlen : w.mem len = 0) :
    (SystemNative_SysctlByName (traced k) name nullptr len (w, [])).2.2
        = [⟨Call.sysctlbyname name nullptr len nullptr 0, w⟩]
      ∧ (∀ e ∈ (SystemNative_Sysctl __linux__ (traced k) name namelen nullptr len (w, [])).2.2,
          e.call.oldp = nullptr ∧ e.call.oldlenp = len ∧ e.entry.mem len = 0)
      ∧ (SystemNative_Sysctl __linux__ (traced k) name namelen nullptr len (w, [])).2.2.length
          = 1
      ∧ (sizeByName name w = some req →
          SystemNative_SysctlByName k name nullptr len w = (0, w.withLength len req))
      ∧ (sizeByPath name (namelen : Int) w = some req →
          SystemNative_Sysctl __linux__ k name namelen nullptr len w
            = (0, w.withLength len req)) := by
  refine ⟨rfl, ?_, ?_, fun hrec => hk.1 name len w req hrec hlen, fun hrec => ?_⟩
  · intro e he
    cases __linux__ <;>
      simp only [SystemNative_Sysctl, traced, List.nil_append, List.mem_singleton,
        if_true, if_false, Bool.false_eq_true] at he <;>
      subst he <;> exact ⟨rfl, rfl, hlen⟩
  · cases __linux__ <;> rfl
  · cases __linux__
    · exact hk.2 name (namelen : Int) len w req hrec hlen
    · have hfit := hdom name (namelen : Int) w req hrec
      simp only [CountFits, if_true] at hfit
      have hc : static_cast_int namelen = (namelen : Int) :=
        static_cast_int_of_lt (by omega)
      simp only [SystemNative_Sysctl, if_true, hc]
      exact hk.2 name (namelen : Int) len w req hrec hlen

/-- Witness of C9: the sample kernel answers a size-only request for its name
and for its path with 0 and the size 8. -/
theorem shims_forward_size_only_witness :
    AnswersSizeOnly sampleKernel sampleSizeByName sampleSizeByPath
      ∧ PathCountsFit false sampleSizeByPath
      ∧ sampleWorldZero.mem 200 = 0
      ∧ SystemNative_SysctlByName sampleKernel 100 nullptr 200 sampleWorldZero
        = (0, sampleWorldZero.withLength 200 8)
      ∧ SystemNative_Sysctl false sampleKernel 300 2 nullptr 200 sampleWorldZero
        = (0, sampleWorldZero.withLength 200 8) :=
  have hk : AnswersSizeOnly sampleKernel sampleSizeByName sampleSizeByPath := by
    constructor
    · intro name oldlenp w req hrec _
      simp only [sampleKernel, hrec, sampleAnswer, if_true]
    · intro name namelen oldlenp w req hrec _
      simp only [sampleKernel, hrec, sampleAnswer, if_true]
  have hdom : PathCountsFit false sampleSizeByPath := by
    intro name c w req hrec
    simp only [sampleSizeByPath] at hrec
    split_ifs at hrec with h
    simp only [CountFits, if_false, Bool.false_eq_true]
    omega
  have h := shims_forward_size_only sampleKernel false sampleSizeByName sampleSizeByPath
    100 2 200 sampleWorldZero 8 hk hdom rfl
  have h2 := shims_forward_size_only sampleKernel false sampleSizeByName sampleSizeByPath
    300 2 200 sampleWorldZero 8 hk hdom rfl
  ⟨hk, hdom, rfl, h.2.2.2.1 (by decide), h2.2.2.2.2 (by decide)⟩

/-- C10: the entry points a compilation defines, by build configuration: none
without `HAVE_SYS_SYSCTL_H`; `SystemNative_Sysctl` alone with
`HAVE_SYS_SYSCTL_H` on Linux; both with `HAVE_SYS_SYSCTL_H` elsewhere, each
with the body given above. `SystemNative_Sysctl` is defined in every
configuration in which `SystemNative_SysctlByName` is. -/
theorem defined_symbols_by_configuration :
    (∀ l, definedSymbols ⟨false, l⟩ = [])
      ∧ definedSymbols ⟨true, true⟩ = [Symbol.SystemNative_Sysctl]
      ∧ definedSymbols ⟨true, false⟩
          = [Symbol.SystemNative_SysctlByName, Symbol.SystemNative_Sysctl]
      ∧ (∀ cfg, Symbol.SystemNative_Sysctl ∈ definedSymbols cfg
          ∨ Symbol.SystemNative_SysctlByName ∉ definedSymbols cfg)
      ∧ (∀ l, (pal_sysctl ⟨true, l⟩ : Exports World).SystemNative_Sysctl
          = some (SystemNative_Sysctl l))
      ∧ (pal_sysctl ⟨true, false⟩ : Exports World).SystemNative_SysctlByName
          = some SystemNative_SysctlByName
      ∧ (pal_sysctl ⟨true, true⟩ : Exports World).SystemNative_SysctlByName = none := by
  refine ⟨?_, rfl, rfl, ?_, ?_, rfl, rfl⟩
  · intro l
    cases l <;> rfl
  · rintro ⟨h, l⟩
    cases h <;> cases l <;> decide
  · intro l
    cases l <;> rfl

end PalSysctl
